import Mathlib

/-
Verification of the bolt mesh generator (`app.py`, function `generate_bolt_input`)
against its natural-language specification.

The Python function is shallowly embedded here:
- Python floats are idealized as real numbers (`ℝ`), `np.pi` as `Real.pi`.
- Python `int(x)` (truncation toward zero) is `pyInt`; `range(n)` is `pyRange`
  (empty for `n ≤ 0`).
- The mutable state of the generator (the running `node_id` counter, the
  `nodes` dictionary, the `node_coordinates` list and the emitted node lines)
  is a `BuildState` threaded through a fold over the emission list, whose
  order mirrors the source's nested loops exactly.
- The emitted text file is modeled as a `List DeckLine`, where fixed literal
  lines are `DeckLine.text` and the per-node / per-element lines keep their
  numeric payload (`DeckLine.node id x y z` renders as "id, x, y, z" with
  coordinates at 3 decimal places; `DeckLine.elem id ns` renders as the
  comma-separated id and node list; rendered node/element lines always start
  with a digit, so only `DeckLine.text` lines can coincide with a `*`-keyword
  line of the deck).
- Python raising `ZeroDivisionError` when `element_size == 0` (the first
  division by `element_size` happens while deriving the resolution counts,
  before any node is emitted) is modeled with an `Except` result.
-/

/-- Geometry parameters of the bolt, mirroring the arguments of
`generate_bolt_input(head_diameter, head_thickness, shank_diameter,
shank_length, thread_length, element_size)`. -/
structure GeometryParams where
  head_diameter : ℝ
  head_thickness : ℝ
  shank_diameter : ℝ
  shank_length : ℝ
  thread_length : ℝ
  element_size : ℝ

/-- Python `int(x)` on a float: truncation toward zero. -/
noncomputable def pyInt (x : ℝ) : ℤ := if 0 ≤ x then ⌊x⌋ else ⌈x⌉

/-- Python `range(n)` for a possibly negative bound: empty when `n ≤ 0`. -/
def pyRange (n : ℤ) : List ℕ := List.range n.toNat

/-- `head_radius = head_diameter / 2` (line 16). -/
noncomputable def head_radius (p : GeometryParams) : ℝ := p.head_diameter / 2

/-- `shank_radius = shank_diameter / 2` (line 17). -/
noncomputable def shank_radius (p : GeometryParams) : ℝ := p.shank_diameter / 2

/-- `num_circumferential_elements = max(8, int((np.pi * max(head_diameter,
shank_diameter)) / element_size))` (line 20). -/
noncomputable def num_circumferential_elements (p : GeometryParams) : ℤ :=
  max 8 (pyInt (Real.pi * max p.head_diameter p.shank_diameter / p.element_size))

/-- `num_head_thickness_elements = max(1, int(head_thickness / element_size))`
(line 21). -/
noncomputable def num_head_thickness_elements (p : GeometryParams) : ℤ :=
  max 1 (pyInt (p.head_thickness / p.element_size))

/-- `num_shank_length_elements = max(1, int(shank_length / element_size))`
(line 22). -/
noncomputable def num_shank_length_elements (p : GeometryParams) : ℤ :=
  max 1 (pyInt (p.shank_length / p.element_size))

/-- `int(head_radius / element_size)`, the head radial division count,
recomputed inline at lines 34, 53 and 86 of the source. -/
noncomputable def num_head_radial_divisions (p : GeometryParams) : ℤ :=
  pyInt (head_radius p / p.element_size)

/-- The circumferential count as a natural number; faithful because the count
is `max 8 … ≥ 8`. -/
noncomputable def nCirc (p : GeometryParams) : ℕ := (num_circumferential_elements p).toNat

/-- The head axial layer count as a natural number; faithful because the count
is `max 1 … ≥ 1`. -/
noncomputable def nHead (p : GeometryParams) : ℕ := (num_head_thickness_elements p).toNat

/-- The shank axial layer count as a natural number; faithful because the count
is `max 1 … ≥ 1`. -/
noncomputable def nShank (p : GeometryParams) : ℕ := (num_shank_length_elements p).toNat

/-- `theta = (i / num_circumferential_elements) * 2 * np.pi` (lines 31, 50, 68). -/
noncomputable def theta (p : GeometryParams) (i : ℕ) : ℝ :=
  ((i : ℝ) / ((num_circumferential_elements p : ℤ) : ℝ)) * 2 * Real.pi

/-- `radius = r * element_size if r < int(head_radius / element_size) else
head_radius` (lines 35, 54). -/
noncomputable def head_radius_at (p : GeometryParams) (r : ℕ) : ℝ :=
  if (r : ℤ) < num_head_radial_divisions p then (r : ℝ) * p.element_size else head_radius p

/-- `z = head_thickness - (layer / num_head_thickness_elements) * head_thickness`
(line 47). -/
noncomputable def head_layer_z (p : GeometryParams) (layer : ℕ) : ℝ :=
  p.head_thickness - ((layer : ℝ) / ((num_head_thickness_elements p : ℤ) : ℝ)) * p.head_thickness

/-- `z = -layer * (shank_length / num_shank_length_elements)` (line 65). -/
noncomputable def shank_z (p : GeometryParams) (layer : ℕ) : ℝ :=
  -(layer : ℝ) * (p.shank_length / ((num_shank_length_elements p : ℤ) : ℝ))

/-- A node's composite dictionary key `(layer, i, r)` as used in `nodes[...]`. -/
abbrev NodeKey := ℕ × ℕ × ℕ

/-- A node coordinate triple `(x, y, z)`. -/
abbrev Coord := ℝ × ℝ × ℝ

/-- One node emission: the dictionary key it is stored under and its coordinate. -/
abbrev Emission := NodeKey × Coord

/-- Node emissions of the bolt head top surface (lines 30-43): outer loop over
circumferential index `i`, inner loop over radial index `r`, key `(0, i, r)`,
`z = head_thickness`. -/
noncomputable def head_top_emissions (p : GeometryParams) : List Emission :=
  (pyRange (num_circumferential_elements p + 1)).flatMap fun i =>
    (pyRange (num_head_radial_divisions p + 1)).map fun r =>
      ((0, i, r),
       (head_radius_at p r * Real.cos (theta p i),
        head_radius_at p r * Real.sin (theta p i),
        p.head_thickness))

/-- Node emissions of the bolt head layers (lines 46-61): outer loop over
`layer` in `range(1, num_head_thickness_elements + 1)`, then `i`, then `r`,
key `(layer, i, r)`. -/
noncomputable def head_layer_emissions (p : GeometryParams) : List Emission :=
  ((List.range (nHead p)).map (· + 1)).flatMap fun layer =>
    (pyRange (num_circumferential_elements p + 1)).flatMap fun i =>
      (pyRange (num_head_radial_divisions p + 1)).map fun r =>
        ((layer, i, r),
         (head_radius_at p r * Real.cos (theta p i),
          head_radius_at p r * Real.sin (theta p i),
          head_layer_z p layer))

/-- All head-region node emissions, in source order (top surface, then layers). -/
noncomputable def head_emissions (p : GeometryParams) : List Emission :=
  head_top_emissions p ++ head_layer_emissions p

/-- The number of nodes emitted for the head region. -/
noncomputable def head_node_count (p : GeometryParams) : ℕ := (head_emissions p).length

/-- Node emissions of the bolt shank (lines 63-77): outer loop over `layer` in
`range(num_shank_length_elements + 1)`, inner loop over `i`; a single
surface ring per layer, stored under key `(layer + num_head_thickness_elements,
i, 0)`. -/
noncomputable def shank_emissions (p : GeometryParams) : List Emission :=
  (pyRange (num_shank_length_elements p + 1)).flatMap fun layer =>
    (pyRange (num_circumferential_elements p + 1)).map fun i =>
      ((layer + nHead p, i, 0),
       (shank_radius p * Real.cos (theta p i),
        shank_radius p * Real.sin (theta p i),
        shank_z p layer))

/-- All node emissions of one build, in source order: head fully before shank. -/
noncomputable def emissions (p : GeometryParams) : List Emission :=
  head_emissions p ++ shank_emissions p

/-- The mutable state of the generator while emitting nodes: the running
`node_id` counter (line 25), the `nodes` dictionary (line 26), the
`node_coordinates` list (line 27) and the node lines written to the output
buffer (line 40/58/74), each line carrying its id and coordinates. -/
structure BuildState where
  node_id : ℕ
  nodes : NodeKey → Option ℕ
  node_coordinates : List Coord
  node_lines : List (ℕ × Coord)

/-- One node emission step (lines 40-43 / 58-61 / 74-77): write the node line,
store the id under the key (overwriting any previous entry, as a Python dict
assignment does), append the coordinates, increment `node_id`. -/
def emitNode (s : BuildState) (e : Emission) : BuildState :=
  { node_id := s.node_id + 1
    nodes := Function.update s.nodes e.1 (some s.node_id)
    node_coordinates := s.node_coordinates ++ [e.2]
    node_lines := s.node_lines ++ [(s.node_id, e.2)] }

/-- The initial state: `node_id = 1`, empty dict, empty lists. -/
def initState : BuildState :=
  { node_id := 1, nodes := fun _ => none, node_coordinates := [], node_lines := [] }

/-- The state after all node emissions of one build. -/
noncomputable def buildState (p : GeometryParams) : BuildState :=
  (emissions p).foldl emitNode initState

/-- `nodes.get(key, 1)` (lines 88-95, 104-107). -/
def nodes_get (s : BuildState) (k : NodeKey) : ℕ := (s.nodes k).getD 1

/-- The 8 node references of one head hexahedron (lines 88-95), in source
order `n1 … n8`. -/
def head_element_nodes (g : NodeKey → ℕ) (layer i r : ℕ) : List ℕ :=
  [g (layer, i, r), g (layer, i + 1, r), g (layer, i + 1, r + 1), g (layer, i, r + 1),
   g (layer + 1, i, r), g (layer + 1, i + 1, r), g (layer + 1, i + 1, r + 1),
   g (layer + 1, i, r + 1)]

/-- The 8 node references of one shank element line (lines 104-109): four
distinct references `n1 n2 n3 n4` followed by the same four again. -/
def shank_element_nodes (g : NodeKey → ℕ) (nH layer i : ℕ) : List ℕ :=
  [g (layer + nH, i, 0), g (layer + nH, i + 1, 0), g (layer + nH + 1, i + 1, 0),
   g (layer + nH + 1, i, 0),
   g (layer + nH, i, 0), g (layer + nH, i + 1, 0), g (layer + nH + 1, i + 1, 0),
   g (layer + nH + 1, i, 0)]

/-- Head element emissions (lines 84-98): loops over `layer`, `i`, `r`. -/
noncomputable def head_elements (p : GeometryParams) : List (List ℕ) :=
  (pyRange (num_head_thickness_elements p)).flatMap fun layer =>
    (pyRange (num_circumferential_elements p)).flatMap fun i =>
      (pyRange (num_head_radial_divisions p)).map fun r =>
        head_element_nodes (nodes_get (buildState p)) layer i r

/-- Shank element emissions (lines 101-110): loops over `layer`, `i`. -/
noncomputable def shank_elements (p : GeometryParams) : List (List ℕ) :=
  (pyRange (num_shank_length_elements p)).flatMap fun layer =>
    (pyRange (num_circumferential_elements p)).map fun i =>
      shank_element_nodes (nodes_get (buildState p)) (nHead p) layer i

/-- All element node tuples of one build, head elements fully before shank
elements, in source emission order. -/
noncomputable def elements (p : GeometryParams) : List (List ℕ) :=
  head_elements p ++ shank_elements p

/-- Pair the entries of a list with ids counting up from `b`, mirroring a
counter incremented once per emitted line. -/
def numberFrom (b : ℕ) : List α → List (ℕ × α)
  | [] => []
  | a :: t => (b, a) :: numberFrom (b + 1) t

/-- The element lines of the output, with `element_id` counting up from 1
(lines 81, 97-98, 109-110). -/
noncomputable def element_lines (p : GeometryParams) : List (ℕ × List ℕ) :=
  numberFrom 1 (elements p)

/-- One line of the serialized input deck. `text` lines are fixed literals;
`node` renders as "id, x, y, z" with the coordinates at 3 decimal places;
`elem` renders as "id, n1, …, n8". -/
inductive DeckLine
  | text (s : String)
  | node (id : ℕ) (x y z : ℝ)
  | elem (id : ℕ) (ns : List ℕ)

/-- The serialized input deck as a list of lines, in source emission order
(lines 9-13, 40/58/74, 80, 97/109, 113-125). A `write` of a string ending in
two newlines contributes the line followed by an empty line. -/
noncomputable def deck (p : GeometryParams) : List DeckLine :=
  [DeckLine.text "** Abaqus Input File for 3D Bolt Model",
   DeckLine.text "*Heading",
   DeckLine.text "3D Bolt Model",
   DeckLine.text "",
   DeckLine.text "*Part, name=Bolt",
   DeckLine.text "*Node"]
  ++ ((buildState p).node_lines.map fun nl => DeckLine.node nl.1 nl.2.1 nl.2.2.1 nl.2.2.2)
  ++ [DeckLine.text "*Element, type=C3D8"]
  ++ ((element_lines p).map fun el => DeckLine.elem el.1 el.2)
  ++ [DeckLine.text "*End Part",
      DeckLine.text "",
      DeckLine.text "*Material, name=Steel",
      DeckLine.text "*Elastic",
      DeckLine.text "210000, 0.3",
      DeckLine.text "",
      DeckLine.text "*Solid Section, elset=ALL_ELEMENTS, material=Steel",
      DeckLine.text "*Assembly, name=Assembly",
      DeckLine.text "*Instance, name=Bolt-1, part=Bolt",
      DeckLine.text "*End Instance",
      DeckLine.text "*End Assembly",
      DeckLine.text "",
      DeckLine.text "*Step, name=StaticStep, nlgeom=YES",
      DeckLine.text "*Static",
      DeckLine.text "1.0, 1.0, 1e-05, 1.0",
      DeckLine.text "",
      DeckLine.text "*End Step"]

/-- The fixed literal lines of a deck, in order (the node and element lines
carry numeric payloads and are dropped). -/
def textLines (d : List DeckLine) : List String :=
  d.filterMap fun l =>
    match l with
    | DeckLine.text s => some s
    | _ => none

/-- The triple returned by `generate_bolt_input` (line 131): the deck text,
the UTF-8 encoded byte stream of the same text (line 129; UTF-8 encoding is
injective and deterministic, so the bytes are modeled by the same line list),
and the exposed node coordinate list. -/
structure BoltOutput where
  inp_content : List DeckLine
  byte_data : List DeckLine
  node_coordinates : List Coord

/-- The full generator. Python raises `ZeroDivisionError` at line 20 — the
first division by `element_size`, before any node is emitted — whenever
`element_size == 0`; no other statement can raise for real-valued inputs, so
every other call returns the built output. -/
noncomputable def generate_bolt_input (p : GeometryParams) : Except String BoltOutput :=
  if p.element_size = 0 then Except.error "ZeroDivisionError"
  else Except.ok ⟨deck p, deck p, (buildState p).node_coordinates⟩

/-- Formalized from the spec's words (claim C2): the 8-tuple of node ids at the
corners of the cell `(a, i, r)`-`(a+1, i+1, r+1)`, "bottom-layer ring (i,r),
(i+1,r), (i+1,r+1), (i,r+1), then top-layer ring in the same
circumferential/radial pattern". -/
def spec_corner_tuple (g : NodeKey → ℕ) (a i r : ℕ) : List ℕ :=
  [g (a, i, r), g (a, i + 1, r), g (a, i + 1, r + 1), g (a, i, r + 1),
   g (a + 1, i, r), g (a + 1, i + 1, r), g (a + 1, i + 1, r + 1), g (a + 1, i, r + 1)]

/-- Formalized from the spec's words (claim C6): the trailing boilerplate lines
of the spec's input-deck template, section 6 of the spec. -/
def spec_boilerplate : List String :=
  ["*End Part", "*Material, name=Steel", "*Elastic", "210000, 0.3",
   "*Solid Section, elset=ALL_ELEMENTS, material=Steel", "*Assembly, name=Assembly",
   "*Instance, part=Bolt", "*End Instance", "*End Assembly",
   "*Step, name=StaticStep", "*Static", "1.0, 1.0", "*End Step"]

/-- The UI default parameters, the spec's concrete scenario:
`headDiameter=20, headThickness=8, shankDiameter=12, shankLength=40,
elementSize=2` (thread length 25 is informational only). -/
def pDefault : GeometryParams := ⟨20, 8, 12, 40, 25, 2⟩

/-- A degenerate but positive parameter set: element size 3 exceeds both radii,
so the head has no interior radial rings and there are no head elements. -/
def pSmall : GeometryParams := ⟨2, 1, 2, 1, 0, 3⟩

/-- A small parameter set with two interior head radial divisions. -/
def pMed : GeometryParams := ⟨4, 1, 2, 1, 0, 1⟩

/-- A parameter set with negative element size (violating the positivity
constraint) on which the generator still returns normally. -/
def pNeg : GeometryParams := ⟨2, 1, 2, 1, 0, -1⟩

/-- The spec's exact-outer-radius scenario: `headDiameter=20, elementSize=7`. -/
def pC4 : GeometryParams := ⟨20, 8, 12, 40, 25, 7⟩

/-- The id counter advances by one per emission. -/
theorem foldl_emitNode_node_id (l : List Emission) (s : BuildState) :
    (l.foldl emitNode s).node_id = s.node_id + l.length := by
  induction l generalizing s with
  | nil => simp
  | cons e t ih =>
      simp only [List.foldl_cons, ih, emitNode, List.length_cons]
      omega

/-- The node lines produced by a fold are the emitted coordinates numbered
consecutively from the starting counter. -/
theorem foldl_emitNode_node_lines (l : List Emission) (s : BuildState) :
    (l.foldl emitNode s).node_lines = s.node_lines ++ numberFrom s.node_id (l.map Prod.snd) := by
  induction l generalizing s with
  | nil => simp [numberFrom]
  | cons e t ih =>
      simp only [List.foldl_cons, ih, emitNode, List.map_cons, numberFrom]
      simp

/-- The coordinate list produced by a fold is the list of emitted coordinates,
in emission order. -/
theorem foldl_emitNode_node_coordinates (l : List Emission) (s : BuildState) :
    (l.foldl emitNode s).node_coordinates = s.node_coordinates ++ l.map Prod.snd := by
  induction l generalizing s with
  | nil => simp
  | cons e t ih =>
      simp only [List.foldl_cons, ih, emitNode, List.map_cons]
      simp

/-- A key not emitted by a fold keeps its previous dictionary entry. -/
theorem foldl_emitNode_nodes_not_mem (l : List Emission) (s : BuildState) (k : NodeKey)
    (h : k ∉ l.map Prod.fst) : (l.foldl emitNode s).nodes k = s.nodes k := by
  induction l generalizing s with
  | nil => rfl
  | cons e t ih =>
      simp only [List.map_cons, List.mem_cons] at h
      push_neg at h
      simp only [List.foldl_cons]
      rw [ih _ h.2]
      simp [emitNode, Function.update_noteq h.1]

/-- `numberFrom` ids are the consecutive range starting at the counter. -/
theorem numberFrom_map_fst (b : ℕ) (l : List α) :
    (numberFrom b l).map Prod.fst = List.range' b l.length := by
  induction l generalizing b with
  | nil => simp [numberFrom]
  | cons a t ih => simp [numberFrom, List.range'_succ, ih]

/-- `numberFrom` keeps the underlying entries unchanged. -/
theorem numberFrom_map_snd (b : ℕ) (l : List α) :
    (numberFrom b l).map Prod.snd = l := by
  induction l generalizing b with
  | nil => simp [numberFrom]
  | cons a t ih => simp [numberFrom, ih]

/-- The head line of a numbered list. -/
theorem numberFrom_head? (b : ℕ) (l : List α) :
    (numberFrom b l).head? = l.head?.map fun a => (b, a) := by
  cases l <;> simp [numberFrom]

/-- The length of a rectangular two-level emission nest. -/
theorem length_grid (L M : ℕ) (g : ℕ → ℕ → Emission) :
    ((List.range L).flatMap fun a => (List.range M).map fun b => g a b).length = L * M := by
  induction L with
  | zero => simp
  | succ n ih =>
      rw [List.range_succ]
      simp only [List.flatMap_append, List.length_append, ih, List.flatMap_cons,
        List.flatMap_nil, List.append_nil, List.length_map, List.length_range]
      ring

/-- Folding one block of emissions with injective keys assigns consecutive ids;
looking up the key of entry `b` afterwards yields `node_id + b`. -/
theorem lookup_foldl_block (f : ℕ → NodeKey) (c : ℕ → Coord) (M : ℕ) (s : BuildState)
    (hinj : ∀ b b', b < M → b' < M → f b = f b' → b = b') (b : ℕ) (hb : b < M) :
    ((((List.range M).map fun b' => (f b', c b')).foldl emitNode s).nodes) (f b)
      = some (s.node_id + b) := by
  induction M generalizing s with
  | zero => omega
  | succ n ih =>
      rw [List.range_succ, List.map_append, List.foldl_append]
      rcases Nat.lt_or_ge b n with hbn | hbn
      · have hne : f b ≠ f n := fun h =>
          absurd (hinj b n (by omega) (by omega) h) (by omega)
        simp only [List.map_cons, List.map_nil, List.foldl_cons, List.foldl_nil, emitNode,
          Function.update_noteq hne]
        exact ih s (fun b b' h1 h2 h => hinj b b' (by omega) (by omega) h) hbn
      · have hbeq : b = n := by omega
        subst hbeq
        simp only [List.map_cons, List.map_nil, List.foldl_cons, List.foldl_nil, emitNode,
          Function.update_same]
        rw [foldl_emitNode_node_id]
        simp

/-- Folding a rectangular two-level emission nest with injective keys: the key
of cell `(a, b)` afterwards maps to `node_id + a * M + b`. -/
theorem lookup_foldl_grid (f : ℕ → ℕ → NodeKey) (c : ℕ → ℕ → Coord) (L M : ℕ) (s : BuildState)
    (hinj : ∀ a b a' b', a < L → b < M → a' < L → b' < M → f a b = f a' b' → a = a' ∧ b = b')
    (a b : ℕ) (ha : a < L) (hb : b < M) :
    ((((List.range L).flatMap fun a' => (List.range M).map fun b' => (f a' b', c a' b')).foldl
        emitNode s).nodes) (f a b) = some (s.node_id + a * M + b) := by
  induction L generalizing s with
  | zero => omega
  | succ n ih =>
      rw [List.range_succ, List.flatMap_append, List.foldl_append]
      rcases Nat.lt_or_ge a n with han | han
      · have hnot : f a b ∉
            ((List.range M).map fun b' => (f n b', c n b')).map Prod.fst := by
          intro hmem
          simp only [List.map_map, List.mem_map, Function.comp, List.mem_range] at hmem
          obtain ⟨b'', hb'', heq⟩ := hmem
          exact absurd (hinj a b n b'' (by omega) hb (by omega) hb'' heq.symm).1 (by omega)
        simp only [List.flatMap_cons, List.flatMap_nil, List.append_nil]
        rw [foldl_emitNode_nodes_not_mem _ _ _ hnot]
        exact ih s (fun x y x' y' h1 h2 h3 h4 h => hinj x y x' y' (by omega) h2 (by omega) h4 h) han
      · have haeq : a = n := by omega
        subst haeq
        simp only [List.flatMap_cons, List.flatMap_nil, List.append_nil]
        rw [lookup_foldl_block (f a) (c a) M _
          (fun x y h1 h2 h => (hinj a x a y (by omega) h1 (by omega) h2 (by simpa using h)).2) b hb]
        rw [foldl_emitNode_node_id, length_grid]

/-- The circumferential count is at least 8. -/
theorem num_circ_nonneg (p : GeometryParams) : 8 ≤ num_circumferential_elements p :=
  le_max_left 8 _

/-- The head layer count is at least 1. -/
theorem num_head_pos (p : GeometryParams) : 1 ≤ num_head_thickness_elements p :=
  le_max_left 1 _

/-- The shank layer count is at least 1. -/
theorem num_shank_pos (p : GeometryParams) : 1 ≤ num_shank_length_elements p :=
  le_max_left 1 _

/-- The natural-number head layer count is at least 1. -/
theorem one_le_nHead (p : GeometryParams) : 1 ≤ nHead p := by
  have := num_head_pos p
  rw [nHead]
  omega

/-- The circumferential loop bound as a natural range. -/
theorem pyRange_circ (p : GeometryParams) :
    pyRange (num_circumferential_elements p + 1) = List.range (nCirc p + 1) := by
  have := num_circ_nonneg p
  rw [pyRange, nCirc]
  congr 1
  omega

/-- The shank layer loop bound as a natural range. -/
theorem pyRange_shank (p : GeometryParams) :
    pyRange (num_shank_length_elements p + 1) = List.range (nShank p + 1) := by
  have := num_shank_pos p
  rw [pyRange, nShank]
  congr 1
  omega

/-- The dictionary entry of shank key `(layer + nHead, i, 0)` after the build:
the shank loop stores node id `1 + head_node_count + layer*(nCirc+1) + i`
there, overwriting whatever the head loops had stored under the same key. -/
theorem shank_nodes_lookup (p : GeometryParams) (l i : ℕ)
    (hl : l < nShank p + 1) (hi : i < nCirc p + 1) :
    (buildState p).nodes (l + nHead p, i, 0)
      = some (1 + head_node_count p + l * (nCirc p + 1) + i) := by
  have h1 : buildState p
      = (shank_emissions p).foldl emitNode ((head_emissions p).foldl emitNode initState) := by
    rw [buildState, emissions, List.foldl_append]
  have h2 : shank_emissions p
      = (List.range (nShank p + 1)).flatMap fun a =>
          (List.range (nCirc p + 1)).map fun b =>
            ((fun a' b' => (a' + nHead p, b', 0)) a b,
             (fun a' b' => (shank_radius p * Real.cos (theta p b'),
               shank_radius p * Real.sin (theta p b'), shank_z p a')) a b) := by
    rw [shank_emissions, pyRange_shank]
    simp only [pyRange_circ]
  rw [h1, h2]
  have h3 := lookup_foldl_grid (fun a' b' => (a' + nHead p, b', 0))
    (fun a' b' => (shank_radius p * Real.cos (theta p b'),
      shank_radius p * Real.sin (theta p b'), shank_z p a'))
    (nShank p + 1) (nCirc p + 1) ((head_emissions p).foldl emitNode initState)
    (fun a b a' b' _ _ _ _ h => by
      simp only [Prod.mk.injEq] at h
      omega) l i hl hi
  rw [h3, foldl_emitNode_node_id]
  have : initState.node_id = 1 := rfl
  rw [this]
  simp only [head_node_count]

/-- The node lines of a build are the emitted coordinates numbered from 1. -/
theorem buildState_node_lines (p : GeometryParams) :
    (buildState p).node_lines = numberFrom 1 ((emissions p).map Prod.snd) := by
  rw [buildState, foldl_emitNode_node_lines]
  rfl

/-- The coordinate list of a build is the emission coordinates in order. -/
theorem buildState_node_coordinates (p : GeometryParams) :
    (buildState p).node_coordinates = (emissions p).map Prod.snd := by
  rw [buildState, foldl_emitNode_node_coordinates]
  rfl

/-- `textLines` distributes over concatenation. -/
theorem textLines_append (a b : List DeckLine) :
    textLines (a ++ b) = textLines a ++ textLines b := by
  rw [textLines, textLines, textLines, List.filterMap_append]

/-- Node lines contribute no fixed literal line. -/
theorem textLines_node_lines (l : List (ℕ × Coord)) :
    textLines (l.map fun nl => DeckLine.node nl.1 nl.2.1 nl.2.2.1 nl.2.2.2) = [] := by
  induction l with
  | nil => rfl
  | cons a t ih => simpa [textLines, List.filterMap_cons] using ih

/-- Element lines contribute no fixed literal line. -/
theorem textLines_elem_lines (l : List (ℕ × List ℕ)) :
    textLines (l.map fun el => DeckLine.elem el.1 el.2) = [] := by
  induction l with
  | nil => rfl
  | cons a t ih => simpa [textLines, List.filterMap_cons] using ih

/-- The fixed literal lines of the deck are the same for every parameter set:
the header block, the single element-block marker, and the trailing
material/section/assembly/step boilerplate exactly as written by the source. -/
theorem textLines_deck (p : GeometryParams) :
    textLines (deck p) =
      ["** Abaqus Input File for 3D Bolt Model", "*Heading", "3D Bolt Model", "",
       "*Part, name=Bolt", "*Node", "*Element, type=C3D8",
       "*End Part", "", "*Material, name=Steel", "*Elastic", "210000, 0.3", "",
       "*Solid Section, elset=ALL_ELEMENTS, material=Steel", "*Assembly, name=Assembly",
       "*Instance, name=Bolt-1, part=Bolt", "*End Instance", "*End Assembly", "",
       "*Step, name=StaticStep, nlgeom=YES", "*Static", "1.0, 1.0, 1e-05, 1.0", "",
       "*End Step"] := by
  rw [deck, textLines_append, textLines_append, textLines_append, textLines_append,
    textLines_node_lines, textLines_elem_lines]
  rfl

/-- `int` is `floor` on nonnegative arguments. -/
theorem pyInt_of_nonneg {x : ℝ} (h : 0 ≤ x) : pyInt x = ⌊x⌋ := by
  rw [pyInt, if_pos h]

/-- `int` is `ceil` (truncation toward zero) on negative arguments. -/
theorem pyInt_of_neg {x : ℝ} (h : x < 0) : pyInt x = ⌈x⌉ := by
  rw [pyInt, if_neg (not_le.mpr h)]

/-- At the default parameters the circumferential count is
`max(8, int(pi*20/2)) = 31`. -/
theorem num_circ_pDefault : num_circumferential_elements pDefault = 31 := by
  rw [num_circumferential_elements]
  have hmax : max pDefault.head_diameter pDefault.shank_diameter = 20 := by
    norm_num [pDefault]
  rw [hmax]
  have harg : Real.pi * 20 / pDefault.element_size = 10 * Real.pi := by
    rw [show pDefault.element_size = 2 from rfl]
    ring
  rw [harg, pyInt_of_nonneg (by positivity)]
  have h1 := Real.pi_gt_3141592
  have h2 := Real.pi_lt_315
  have hf : ⌊(10:ℝ) * Real.pi⌋ = 31 := by
    rw [Int.floor_eq_iff]
    constructor
    · push_cast
      linarith
    · push_cast
      linarith
  rw [hf]
  norm_num

/-- At the default parameters the head layer count is `max(1, int(8/2)) = 4`. -/
theorem num_head_pDefault : num_head_thickness_elements pDefault = 4 := by
  rw [num_head_thickness_elements]
  have harg : pDefault.head_thickness / pDefault.element_size = 4 := by
    norm_num [pDefault]
  rw [harg, pyInt_of_nonneg (by norm_num)]
  norm_num

/-- At the default parameters the shank layer count is `max(1, int(40/2)) = 20`. -/
theorem num_shank_pDefault : num_shank_length_elements pDefault = 20 := by
  rw [num_shank_length_elements]
  have harg : pDefault.shank_length / pDefault.element_size = 20 := by
    norm_num [pDefault]
  rw [harg, pyInt_of_nonneg (by norm_num)]
  norm_num

/-- At the default parameters the head radial division count is `int(10/2) = 5`. -/
theorem num_rad_pDefault : num_head_radial_divisions pDefault = 5 := by
  rw [num_head_radial_divisions, head_radius]
  have harg : pDefault.head_diameter / 2 / pDefault.element_size = 5 := by
    norm_num [pDefault]
  rw [harg, pyInt_of_nonneg (by norm_num)]
  norm_num

/-- At `pSmall` the head radial division count is `int(1/3) = 0`. -/
theorem num_rad_pSmall : num_head_radial_divisions pSmall = 0 := by
  rw [num_head_radial_divisions, head_radius]
  have harg : pSmall.head_diameter / 2 / pSmall.element_size = 1 / 3 := by
    norm_num [pSmall]
  rw [harg, pyInt_of_nonneg (by norm_num)]
  rw [Int.floor_eq_iff] <;> norm_num

/-- At `pSmall` the head layer count is `max(1, int(1/3)) = 1`. -/
theorem num_head_pSmall : num_head_thickness_elements pSmall = 1 := by
  rw [num_head_thickness_elements]
  have harg : pSmall.head_thickness / pSmall.element_size = 1 / 3 := by
    norm_num [pSmall]
  rw [harg, pyInt_of_nonneg (by norm_num)]
  have : ⌊(1:ℝ) / 3⌋ = 0 := by
    rw [Int.floor_eq_iff] <;> norm_num
  rw [this]
  norm_num

/-- At `pSmall` the shank layer count is `max(1, int(1/3)) = 1`. -/
theorem num_shank_pSmall : num_shank_length_elements pSmall = 1 := by
  rw [num_shank_length_elements]
  have harg : pSmall.shank_length / pSmall.element_size = 1 / 3 := by
    norm_num [pSmall]
  rw [harg, pyInt_of_nonneg (by norm_num)]
  have : ⌊(1:ℝ) / 3⌋ = 0 := by
    rw [Int.floor_eq_iff] <;> norm_num
  rw [this]
  norm_num

/-- At `pMed` the head radial division count is `int(2/1) = 2`. -/
theorem num_rad_pMed : num_head_radial_divisions pMed = 2 := by
  rw [num_head_radial_divisions, head_radius]
  have harg : pMed.head_diameter / 2 / pMed.element_size = 2 := by
    norm_num [pMed]
  rw [harg, pyInt_of_nonneg (by norm_num)]
  norm_num

/-- At `pC4` the head radial division count is `int(10/7) = 1`. -/
theorem num_rad_pC4 : num_head_radial_divisions pC4 = 1 := by
  rw [num_head_radial_divisions, head_radius]
  have harg : pC4.head_diameter / 2 / pC4.element_size = 10 / 7 := by
    norm_num [pC4]
  rw [harg, pyInt_of_nonneg (by norm_num)]
  rw [Int.floor_eq_iff] <;> norm_num

/-- The radial loop bound as a natural range, when the division count is
nonnegative. -/
theorem pyRange_rad (p : GeometryParams) (h : 0 ≤ num_head_radial_divisions p) :
    pyRange (num_head_radial_divisions p + 1)
      = List.range ((num_head_radial_divisions p).toNat + 1) := by
  rw [pyRange]
  congr 1
  omega

/-- The first shank emission: layer 0, circumferential index 0. -/
theorem shank_emissions_head? (p : GeometryParams) :
    (shank_emissions p).head?
      = some ((0 + nHead p, 0, 0),
          (shank_radius p * Real.cos (theta p 0), shank_radius p * Real.sin (theta p 0),
           shank_z p 0)) := by
  rw [shank_emissions, pyRange_shank]
  simp only [pyRange_circ]
  rw [List.range_succ_eq_map, List.range_succ_eq_map]
  simp

/-- The shank always emits at least one node. -/
theorem shank_emissions_ne_nil (p : GeometryParams) : shank_emissions p ≠ [] := by
  intro h
  have := shank_emissions_head? p
  rw [h] at this
  simp at this

/-- The first head-top emission: circumferential index 0, radial index 0. -/
theorem head_top_emissions_head? (p : GeometryParams)
    (h : 0 ≤ num_head_radial_divisions p) :
    (head_top_emissions p).head?
      = some ((0, 0, 0),
          (head_radius_at p 0 * Real.cos (theta p 0), head_radius_at p 0 * Real.sin (theta p 0),
           p.head_thickness)) := by
  rw [head_top_emissions, pyRange_circ, pyRange_rad p h]
  rw [List.range_succ_eq_map, List.range_succ_eq_map]
  simp

/-- The first emission of the whole build is the first head-top emission. -/
theorem emissions_head? (p : GeometryParams) (h : 0 ≤ num_head_radial_divisions p) :
    (emissions p).head?
      = some ((0, 0, 0),
          (head_radius_at p 0 * Real.cos (theta p 0), head_radius_at p 0 * Real.sin (theta p 0),
           p.head_thickness)) := by
  have htop := head_top_emissions_head? p h
  cases hcase : head_top_emissions p with
  | nil => rw [hcase] at htop; simp at htop
  | cons a t =>
      rw [hcase] at htop
      simp only [List.head?_cons, Option.some.injEq] at htop
      rw [emissions, head_emissions, hcase]
      simp [htop]

/-- Membership of an arbitrary head-top emission. -/
theorem mem_head_top_emissions (p : GeometryParams) (i r : ℕ)
    (hi : i < nCirc p + 1) (hr : r < (num_head_radial_divisions p + 1).toNat) :
    ((0, i, r),
      (head_radius_at p r * Real.cos (theta p i), head_radius_at p r * Real.sin (theta p i),
       p.head_thickness)) ∈ head_top_emissions p := by
  rw [head_top_emissions, pyRange_circ]
  rw [List.mem_flatMap]
  refine ⟨i, by simp [List.mem_range, hi], ?_⟩
  rw [List.mem_map]
  exact ⟨r, by simp [pyRange, List.mem_range, hr], rfl⟩

/-- Membership of an arbitrary head-layer emission. -/
theorem mem_head_layer_emissions (p : GeometryParams) (layer i r : ℕ)
    (hL1 : 1 ≤ layer) (hL2 : layer ≤ nHead p)
    (hi : i < nCirc p + 1) (hr : r < (num_head_radial_divisions p + 1).toNat) :
    ((layer, i, r),
      (head_radius_at p r * Real.cos (theta p i), head_radius_at p r * Real.sin (theta p i),
       head_layer_z p layer)) ∈ head_layer_emissions p := by
  rw [head_layer_emissions]
  rw [List.mem_flatMap]
  refine ⟨layer, ?_, ?_⟩
  · rw [List.mem_map]
    exact ⟨layer - 1, by simp [List.mem_range]; omega, by omega⟩
  · rw [pyRange_circ, List.mem_flatMap]
    refine ⟨i, by simp [List.mem_range, hi], ?_⟩
    rw [List.mem_map]
    exact ⟨r, by simp [pyRange, List.mem_range, hr], rfl⟩

/-- The z coordinate of the deepest head layer is 0. -/
theorem head_layer_z_nHead (p : GeometryParams) : head_layer_z p (nHead p) = 0 := by
  rw [head_layer_z]
  have h0 : ((nHead p : ℕ) : ℤ) = num_head_thickness_elements p := by
    rw [nHead]
    exact Int.toNat_of_nonneg (by linarith [num_head_pos p])
  have h1 : ((nHead p : ℕ) : ℝ) = ((num_head_thickness_elements p : ℤ) : ℝ) := by
    exact_mod_cast congrArg (fun z : ℤ => (z : ℝ)) h0
  have h2 : ((num_head_thickness_elements p : ℤ) : ℝ) ≠ 0 := by
    have := num_head_pos p
    push_cast
    exact_mod_cast (by omega : num_head_thickness_elements p ≠ 0)
  rw [h1, div_self h2]
  ring

/-- The z coordinate of the first shank layer is 0. -/
theorem shank_z_zero (p : GeometryParams) : shank_z p 0 = 0 := by
  rw [shank_z]
  push_cast
  ring

/-- C1: for every valid parameter set, the node ids emitted by the build form
the contiguous range 1..N in emission order (head top surface, then head
layers, then shank, each in the source's nested loop order), and the exposed
node coordinate list is exactly the emitted coordinates in this id order. -/
theorem c1_node_ids_contiguous (p : GeometryParams)
    (h1 : 0 < p.head_diameter) (h2 : 0 < p.head_thickness) (h3 : 0 < p.shank_diameter)
    (h4 : 0 < p.shank_length) (h5 : 0 < p.element_size) :
    (buildState p).node_lines.map Prod.fst = List.range' 1 (emissions p).length
    ∧ emissions p = (head_top_emissions p ++ head_layer_emissions p) ++ shank_emissions p
    ∧ (buildState p).node_coordinates = (emissions p).map Prod.snd
    ∧ (buildState p).node_lines.map Prod.snd = (buildState p).node_coordinates := by
  refine ⟨?_, rfl, buildState_node_coordinates p, ?_⟩
  · rw [buildState_node_lines, numberFrom_map_fst, List.length_map]
  · rw [buildState_node_lines, numberFrom_map_snd, buildState_node_coordinates]

/-- Witness for C1 at the default parameters. -/
theorem c1_node_ids_contiguous_witness :
    ((0:ℝ) < pDefault.head_diameter ∧ (0:ℝ) < pDefault.head_thickness
      ∧ (0:ℝ) < pDefault.shank_diameter ∧ (0:ℝ) < pDefault.shank_length
      ∧ (0:ℝ) < pDefault.element_size)
    ∧ (buildState pDefault).node_lines.map Prod.fst
        = List.range' 1 (emissions pDefault).length :=
  ⟨by norm_num [pDefault],
   (c1_node_ids_contiguous pDefault (by norm_num [pDefault]) (by norm_num [pDefault])
     (by norm_num [pDefault]) (by norm_num [pDefault]) (by norm_num [pDefault])).1⟩

/-- C3: for positive parameters the derived resolution counts are
`max(8, floor(pi*max(headDiameter, shankDiameter)/elementSize))`,
`max(1, floor(headThickness/elementSize))` and
`max(1, floor(shankLength/elementSize))`; at the default parameters they are
31, 4 and 20. -/
theorem c3_resolution_counts :
    (∀ p : GeometryParams, 0 < p.head_diameter → 0 < p.head_thickness →
      0 < p.shank_diameter → 0 < p.shank_length → 0 < p.element_size →
      num_circumferential_elements p
          = max 8 ⌊Real.pi * max p.head_diameter p.shank_diameter / p.element_size⌋
        ∧ num_head_thickness_elements p = max 1 ⌊p.head_thickness / p.element_size⌋
        ∧ num_shank_length_elements p = max 1 ⌊p.shank_length / p.element_size⌋)
    ∧ num_circumferential_elements pDefault = 31
    ∧ num_head_thickness_elements pDefault = 4
    ∧ num_shank_length_elements pDefault = 20 := by
  refine ⟨fun p h1 h2 h3 h4 h5 => ⟨?_, ?_, ?_⟩,
    num_circ_pDefault, num_head_pDefault, num_shank_pDefault⟩
  · rw [num_circumferential_elements, pyInt_of_nonneg]
    apply div_nonneg _ h5.le
    exact mul_nonneg Real.pi_pos.le (le_trans h1.le (le_max_left _ _))
  · rw [num_head_thickness_elements, pyInt_of_nonneg (div_nonneg h2.le h5.le)]
  · rw [num_shank_length_elements, pyInt_of_nonneg (div_nonneg h4.le h5.le)]

/-- Witness for C3 at the default parameters. -/
theorem c3_resolution_counts_witness :
    ((0:ℝ) < pDefault.head_diameter ∧ (0:ℝ) < pDefault.head_thickness
      ∧ (0:ℝ) < pDefault.shank_diameter ∧ (0:ℝ) < pDefault.shank_length
      ∧ (0:ℝ) < pDefault.element_size)
    ∧ num_circumferential_elements pDefault
        = max 8 ⌊Real.pi * max pDefault.head_diameter pDefault.shank_diameter
            / pDefault.element_size⌋ :=
  ⟨by norm_num [pDefault],
   (c3_resolution_counts.1 pDefault (by norm_num [pDefault]) (by norm_num [pDefault])
     (by norm_num [pDefault]) (by norm_num [pDefault]) (by norm_num [pDefault])).1⟩

/-- C9: the build-and-serialize pipeline is deterministic — it is a pure
function of the parameters: identical parameter values give identical deck
text, identical byte output and identical coordinate lists. The embedding is
a pure function precisely because the source reads nothing but its arguments
and module constants. -/
theorem c9_deterministic (p q : GeometryParams) (h : p = q) :
    generate_bolt_input p = generate_bolt_input q
    ∧ deck p = deck q
    ∧ (buildState p).node_coordinates = (buildState q).node_coordinates := by
  subst h
  exact ⟨rfl, rfl, rfl⟩

/-- Witness for C9 at the default parameters. -/
theorem c9_deterministic_witness :
    pDefault = pDefault
    ∧ generate_bolt_input pDefault = generate_bolt_input pDefault :=
  ⟨rfl, (c9_deterministic pDefault pDefault rfl).1⟩

/-- Squared distance from the axis of a polar-placed point. -/
theorem cos_sin_radius_sq (R t : ℝ) :
    (R * Real.cos t) ^ 2 + (R * Real.sin t) ^ 2 = R ^ 2 := by
  have h := Real.sin_sq_add_cos_sq t
  have h2 : (R * Real.cos t) ^ 2 + (R * Real.sin t) ^ 2
      = R ^ 2 * (Real.sin t ^ 2 + Real.cos t ^ 2) := by ring
  rw [h2, h, mul_one]

/-- Every head emission sits at distance `head_radius_at` of its radial index
from the axis: interior rings at `r * element_size`, the outermost ring at
exactly `head_radius`. -/
theorem head_emissions_radius_sq (p : GeometryParams) :
    ∀ k c, (k, c) ∈ head_emissions p →
      (((k.2.2 : ℤ) < num_head_radial_divisions p →
          c.1 ^ 2 + c.2.1 ^ 2 = ((k.2.2 : ℝ) * p.element_size) ^ 2)
       ∧ (num_head_radial_divisions p ≤ (k.2.2 : ℤ) →
          c.1 ^ 2 + c.2.1 ^ 2 = head_radius p ^ 2)) := by
  intro k c hmem
  rw [head_emissions, List.mem_append] at hmem
  have hgoal : ∀ r : ℕ, k.2.2 = r →
      c.1 = head_radius_at p r * Real.cos (theta p k.2.1) →
      c.2.1 = head_radius_at p r * Real.sin (theta p k.2.1) →
      (((k.2.2 : ℤ) < num_head_radial_divisions p →
          c.1 ^ 2 + c.2.1 ^ 2 = ((k.2.2 : ℝ) * p.element_size) ^ 2)
       ∧ (num_head_radial_divisions p ≤ (k.2.2 : ℤ) →
          c.1 ^ 2 + c.2.1 ^ 2 = head_radius p ^ 2)) := by
    intro r hk hx hy
    subst hk
    rw [hx, hy, cos_sin_radius_sq]
    constructor
    · intro hlt
      rw [head_radius_at, if_pos hlt]
    · intro hge
      rw [head_radius_at, if_neg (not_lt.mpr hge)]
  rcases hmem with hmem | hmem
  · rw [head_top_emissions] at hmem
    simp only [List.mem_flatMap, List.mem_map] at hmem
    obtain ⟨i, hi, r, hr, heq⟩ := hmem
    cases heq
    exact hgoal r rfl rfl rfl
  · rw [head_layer_emissions] at hmem
    simp only [List.mem_flatMap, List.mem_map] at hmem
    obtain ⟨layer, hL, i, hi, r, hr, heq⟩ := hmem
    cases heq
    exact hgoal r rfl rfl rfl

/-- Every shank emission sits at distance exactly `shank_radius` from the axis. -/
theorem shank_emissions_radius_sq (p : GeometryParams) :
    ∀ k c, (k, c) ∈ shank_emissions p → c.1 ^ 2 + c.2.1 ^ 2 = shank_radius p ^ 2 := by
  intro k c hmem
  rw [shank_emissions] at hmem
  simp only [List.mem_flatMap, List.mem_map] at hmem
  obtain ⟨layer, hL, i, hi, heq⟩ := hmem
  cases heq
  exact cos_sin_radius_sq _ _

/-- When the radial division count degenerates, every head key has radial
index 0. -/
theorem head_emissions_degenerate_key (p : GeometryParams)
    (h : num_head_radial_divisions p ≤ 0) :
    ∀ k c, (k, c) ∈ head_emissions p → k.2.2 = 0 := by
  intro k c hmem
  rw [head_emissions, List.mem_append] at hmem
  rcases hmem with hmem | hmem
  · rw [head_top_emissions] at hmem
    simp only [List.mem_flatMap, List.mem_map] at hmem
    obtain ⟨i, hi, r, hr, heq⟩ := hmem
    cases heq
    simp only [pyRange, List.mem_range] at hr
    show r = 0
    omega
  · rw [head_layer_emissions] at hmem
    simp only [List.mem_flatMap, List.mem_map] at hmem
    obtain ⟨layer, hL, i, hi, r, hr, heq⟩ := hmem
    cases heq
    simp only [pyRange, List.mem_range] at hr
    show r = 0
    omega

/-- A degenerate radial count: element size exceeding the head radius floors
the division count to 0. -/
theorem num_rad_degenerate (p : GeometryParams) (h1 : 0 < p.head_diameter)
    (h5 : 0 < p.element_size) (hlt : head_radius p < p.element_size) :
    num_head_radial_divisions p = 0 := by
  have h0 : (0:ℝ) ≤ head_radius p / p.element_size := by
    apply div_nonneg _ h5.le
    rw [head_radius]
    linarith
  rw [num_head_radial_divisions, pyInt_of_nonneg h0]
  rw [Int.floor_eq_iff]
  constructor
  · exact_mod_cast h0
  · push_cast
    rw [zero_add, div_lt_one h5]
    linarith [hlt]

/-- C4: for every valid parameter set, every head node at radial index `r`
lies at distance `r * elementSize` from the axis when `r` is an interior ring,
and at exactly `head_radius` when `r` is the outermost ring; every shank node
lies at exactly `shank_radius`. In the spec's concrete scenario
(`headDiameter=20, elementSize=7`) the radial count is 1 and the outer ring
sits at radius exactly 10. -/
theorem c4_radial_placement :
    (∀ p : GeometryParams, 0 < p.head_diameter → 0 < p.head_thickness →
      0 < p.shank_diameter → 0 < p.shank_length → 0 < p.element_size →
      (∀ k c, (k, c) ∈ head_emissions p →
        (((k.2.2 : ℤ) < num_head_radial_divisions p →
            c.1 ^ 2 + c.2.1 ^ 2 = ((k.2.2 : ℝ) * p.element_size) ^ 2)
         ∧ (num_head_radial_divisions p ≤ (k.2.2 : ℤ) →
            c.1 ^ 2 + c.2.1 ^ 2 = head_radius p ^ 2)))
      ∧ (∀ k c, (k, c) ∈ shank_emissions p → c.1 ^ 2 + c.2.1 ^ 2 = shank_radius p ^ 2))
    ∧ num_head_radial_divisions pC4 = 1
    ∧ head_radius_at pC4 1 = head_radius pC4
    ∧ head_radius pC4 = 10 := by
  refine ⟨fun p _ _ _ _ _ => ⟨head_emissions_radius_sq p, shank_emissions_radius_sq p⟩,
    num_rad_pC4, ?_, ?_⟩
  · have h : ¬ (((1:ℕ) : ℤ) < num_head_radial_divisions pC4) := by
      rw [num_rad_pC4]
      norm_num
    rw [head_radius_at, if_neg h]
  · rw [head_radius]
    norm_num [pC4]

/-- Witness for C4: the outer-ring head-top node of `pC4` sits at squared
distance `head_radius^2` from the axis. -/
theorem c4_radial_placement_witness :
    ((0:ℝ) < pC4.head_diameter ∧ (0:ℝ) < pC4.head_thickness ∧ (0:ℝ) < pC4.shank_diameter
      ∧ (0:ℝ) < pC4.shank_length ∧ (0:ℝ) < pC4.element_size)
    ∧ (((0, 0, 1), (head_radius_at pC4 1 * Real.cos (theta pC4 0),
         head_radius_at pC4 1 * Real.sin (theta pC4 0), pC4.head_thickness))
        ∈ head_emissions pC4)
    ∧ (head_radius_at pC4 1 * Real.cos (theta pC4 0)) ^ 2
        + (head_radius_at pC4 1 * Real.sin (theta pC4 0)) ^ 2 = head_radius pC4 ^ 2 := by
  have hr1 : (1:ℕ) < (num_head_radial_divisions pC4 + 1).toNat := by
    rw [num_rad_pC4]
    decide
  have hmem : ((0, 0, 1), (head_radius_at pC4 1 * Real.cos (theta pC4 0),
      head_radius_at pC4 1 * Real.sin (theta pC4 0), pC4.head_thickness))
      ∈ head_emissions pC4 := by
    rw [head_emissions]
    exact List.mem_append_left _ (mem_head_top_emissions pC4 0 1 (Nat.succ_pos _) hr1)
  refine ⟨by norm_num [pC4], hmem, ?_⟩
  have h := ((c4_radial_placement.1 pC4 (by norm_num [pC4]) (by norm_num [pC4])
    (by norm_num [pC4]) (by norm_num [pC4]) (by norm_num [pC4])).1 (0, 0, 1) _ hmem).2
    (by rw [num_rad_pC4]; exact le_refl 1)
  simpa using h

/-- C7: the builder never fails on positive inputs; the shank always emits a
non-empty ring of nodes at exactly `shank_radius`; and when the element size
exceeds the head radius the radial division count floors to 0 and the head
degenerates to rings (radial index 0 only) at exactly the boundary radius. -/
theorem c7_degenerate_inputs_clamped (p : GeometryParams)
    (h1 : 0 < p.head_diameter) (h2 : 0 < p.head_thickness) (h3 : 0 < p.shank_diameter)
    (h4 : 0 < p.shank_length) (h5 : 0 < p.element_size) :
    generate_bolt_input p = Except.ok ⟨deck p, deck p, (buildState p).node_coordinates⟩
    ∧ shank_emissions p ≠ []
    ∧ (∀ k c, (k, c) ∈ shank_emissions p → c.1 ^ 2 + c.2.1 ^ 2 = shank_radius p ^ 2)
    ∧ (head_radius p < p.element_size →
        num_head_radial_divisions p = 0
        ∧ head_top_emissions p ≠ []
        ∧ (∀ k c, (k, c) ∈ head_emissions p →
            k.2.2 = 0 ∧ c.1 ^ 2 + c.2.1 ^ 2 = head_radius p ^ 2)) := by
  refine ⟨?_, shank_emissions_ne_nil p, shank_emissions_radius_sq p, fun hlt => ?_⟩
  · rw [generate_bolt_input, if_neg (ne_of_gt h5)]
  · have h0 := num_rad_degenerate p h1 h5 hlt
    refine ⟨h0, ?_, fun k c hmem => ?_⟩
    · intro hnil
      have := head_top_emissions_head? p (le_of_eq h0.symm)
      rw [hnil] at this
      simp at this
    · refine ⟨head_emissions_degenerate_key p (le_of_eq h0) k c hmem, ?_⟩
      apply (head_emissions_radius_sq p k c hmem).2
      rw [h0]
      exact_mod_cast Nat.zero_le _

/-- Witness for C7 at `pSmall`, whose element size 3 exceeds the head radius 1. -/
theorem c7_degenerate_inputs_clamped_witness :
    ((0:ℝ) < pSmall.head_diameter ∧ (0:ℝ) < pSmall.head_thickness
      ∧ (0:ℝ) < pSmall.shank_diameter ∧ (0:ℝ) < pSmall.shank_length
      ∧ (0:ℝ) < pSmall.element_size ∧ head_radius pSmall < pSmall.element_size)
    ∧ shank_emissions pSmall ≠ []
    ∧ num_head_radial_divisions pSmall = 0 := by
  have hd := c7_degenerate_inputs_clamped pSmall (by norm_num [pSmall]) (by norm_num [pSmall])
    (by norm_num [pSmall]) (by norm_num [pSmall]) (by norm_num [pSmall])
  have hlt : head_radius pSmall < pSmall.element_size := by
    rw [head_radius]
    norm_num [pSmall]
  exact ⟨⟨by norm_num [pSmall], by norm_num [pSmall], by norm_num [pSmall],
    by norm_num [pSmall], by norm_num [pSmall], hlt⟩, hd.2.1, (hd.2.2.2 hlt).1⟩

/-- C10: the shank's first node layer is stored under keys
`(nHead, i, 0)` — exactly the keys of the head's bottom-layer axis nodes —
and the later insertion wins: after the build the dictionary resolves these
keys to the shank top-ring node ids (the ids directly after the head block),
whose coordinates lie at radius `shank_radius` and `z = 0`; the head phase
did emit a node under the same key at the axis `(0, 0, 0)`; and entry 5 of a
bottommost head element with `r = 0` (corner `n5`) resolves to that shank id. -/
theorem c10_shank_overwrites_head_keys (p : GeometryParams)
    (hrad : 1 ≤ num_head_radial_divisions p) (i : ℕ) (hi : i < nCirc p + 1) :
    nodes_get (buildState p) (nHead p, i, 0) = 1 + head_node_count p + i
    ∧ (buildState p).node_coordinates.get? (head_node_count p + i)
        = some (shank_radius p * Real.cos (theta p i), shank_radius p * Real.sin (theta p i),
            shank_z p 0)
    ∧ shank_z p 0 = 0
    ∧ ((nHead p, i, 0), ((0:ℝ), 0, 0)) ∈ head_layer_emissions p
    ∧ (head_element_nodes (nodes_get (buildState p)) (nHead p - 1) i 0).get? 4
        = some (1 + head_node_count p + i) := by
  have hlookup : (buildState p).nodes (nHead p, i, 0) = some (1 + head_node_count p + i) := by
    have h := shank_nodes_lookup p 0 i (Nat.succ_pos _) hi
    simpa using h
  have hget : nodes_get (buildState p) (nHead p, i, 0) = 1 + head_node_count p + i := by
    rw [nodes_get, hlookup]
    rfl
  refine ⟨hget, ?_, shank_z_zero p, ?_, ?_⟩
  · rw [buildState_node_coordinates, emissions, List.map_append]
    have hlen : (List.map Prod.snd (head_emissions p)).length = head_node_count p := by
      rw [List.length_map, head_node_count]
    rw [List.get?_append_right (by rw [hlen]; omega)]
    rw [hlen]
    have hidx : head_node_count p + i - head_node_count p = i := by omega
    rw [hidx]
    rw [shank_emissions, pyRange_shank]
    simp only [pyRange_circ]
    rw [List.range_succ_eq_map]
    simp only [List.flatMap_cons, List.map_append]
    rw [List.get?_append (by simpa using hi)]
    rw [List.map_map, List.get?_map, List.get?_range (by omega)]
    rfl
  · have hmem := mem_head_layer_emissions p (nHead p) i 0 (one_le_nHead p) le_rfl hi
      (by omega)
    have hr0 : head_radius_at p 0 = 0 := by
      rw [head_radius_at, if_pos (by exact_mod_cast hrad)]
      simp
    have hz := head_layer_z_nHead p
    rw [hr0, hz] at hmem
    simpa using hmem
  · have hL : nHead p - 1 + 1 = nHead p := by
      have := one_le_nHead p
      omega
    rw [head_element_nodes]
    simp only [List.get?]
    rw [hL, hget]

/-- Witness for C10 at `pMed` (radial count 2), circumferential index 0. -/
theorem c10_shank_overwrites_head_keys_witness :
    1 ≤ num_head_radial_divisions pMed
    ∧ nodes_get (buildState pMed) (nHead pMed, 0, 0) = 1 + head_node_count pMed + 0 := by
  have h1 : 1 ≤ num_head_radial_divisions pMed := by
    rw [num_rad_pMed]
    norm_num
  exact ⟨h1, (c10_shank_overwrites_head_keys pMed h1 0 (Nat.succ_pos _)).1⟩

/-- C5 (amended): the generator performs no parameter validation. The only
failing input is `element_size = 0`, which raises a division error while
deriving the resolution counts — before any node is emitted, so nothing is
returned; every other parameter set, including nonpositive dimensions and
negative element sizes, builds and returns normally. -/
theorem c5_amended_no_validation (p : GeometryParams) :
    (p.element_size = 0 → generate_bolt_input p = Except.error "ZeroDivisionError")
    ∧ (p.element_size ≠ 0 →
        generate_bolt_input p
          = Except.ok ⟨deck p, deck p, (buildState p).node_coordinates⟩) := by
  constructor
  · intro h
    rw [generate_bolt_input, if_pos h]
  · intro h
    rw [generate_bolt_input, if_neg h]

/-- Witness for the amended C5 at `pNeg`. -/
theorem c5_amended_no_validation_witness :
    pNeg.element_size ≠ 0
    ∧ generate_bolt_input pNeg
        = Except.ok ⟨deck pNeg, deck pNeg, (buildState pNeg).node_coordinates⟩ :=
  ⟨by norm_num [pNeg], (c5_amended_no_validation pNeg).2 (by norm_num [pNeg])⟩

/-- Counterexample to C5 as stated: a call with `element_size = -1 ≤ 0` is not
rejected — the generator returns successfully and emits a non-empty node
list. -/
theorem c5_counterexample_negative_element_size :
    pNeg.element_size < 0
    ∧ generate_bolt_input pNeg
        = Except.ok ⟨deck pNeg, deck pNeg, (buildState pNeg).node_coordinates⟩
    ∧ (buildState pNeg).node_coordinates ≠ [] := by
  refine ⟨by norm_num [pNeg], ?_, ?_⟩
  · rw [generate_bolt_input, if_neg (by norm_num [pNeg])]
  · rw [buildState_node_coordinates]
    intro h
    have hem : emissions pNeg = [] := List.map_eq_nil.mp h
    rw [emissions] at hem
    exact shank_emissions_ne_nil pNeg (List.append_eq_nil.mp hem).2

/-- C6 (amended): the deck is, in fixed order, the heading block, the node
block, the element block and fixed boilerplate — but the boilerplate written
by the source has `*Instance, name=Bolt-1, part=Bolt`,
`*Step, name=StaticStep, nlgeom=YES` and static data `1.0, 1.0, 1e-05, 1.0`,
with blank separator lines; its literal lines carry no per-mesh variability. -/
theorem c6_amended_deck_layout (p : GeometryParams) :
    deck p =
      [DeckLine.text "** Abaqus Input File for 3D Bolt Model", DeckLine.text "*Heading",
       DeckLine.text "3D Bolt Model", DeckLine.text "", DeckLine.text "*Part, name=Bolt",
       DeckLine.text "*Node"]
      ++ ((buildState p).node_lines.map fun nl => DeckLine.node nl.1 nl.2.1 nl.2.2.1 nl.2.2.2)
      ++ [DeckLine.text "*Element, type=C3D8"]
      ++ ((element_lines p).map fun el => DeckLine.elem el.1 el.2)
      ++ [DeckLine.text "*End Part", DeckLine.text "", DeckLine.text "*Material, name=Steel",
          DeckLine.text "*Elastic", DeckLine.text "210000, 0.3", DeckLine.text "",
          DeckLine.text "*Solid Section, elset=ALL_ELEMENTS, material=Steel",
          DeckLine.text "*Assembly, name=Assembly",
          DeckLine.text "*Instance, name=Bolt-1, part=Bolt", DeckLine.text "*End Instance",
          DeckLine.text "*End Assembly", DeckLine.text "",
          DeckLine.text "*Step, name=StaticStep, nlgeom=YES", DeckLine.text "*Static",
          DeckLine.text "1.0, 1.0, 1e-05, 1.0", DeckLine.text "", DeckLine.text "*End Step"]
    ∧ textLines (deck p) =
      ["** Abaqus Input File for 3D Bolt Model", "*Heading", "3D Bolt Model", "",
       "*Part, name=Bolt", "*Node", "*Element, type=C3D8",
       "*End Part", "", "*Material, name=Steel", "*Elastic", "210000, 0.3", "",
       "*Solid Section, elset=ALL_ELEMENTS, material=Steel", "*Assembly, name=Assembly",
       "*Instance, name=Bolt-1, part=Bolt", "*End Instance", "*End Assembly", "",
       "*Step, name=StaticStep, nlgeom=YES", "*Static", "1.0, 1.0, 1e-05, 1.0", "",
       "*End Step"] :=
  ⟨rfl, textLines_deck p⟩

/-- Counterexample to C6 as stated: the spec's template boilerplate is not
reproduced — `*Instance, part=Bolt`, `*Step, name=StaticStep` and `1.0, 1.0`
never occur as deck lines; the source writes `*Instance, name=Bolt-1,
part=Bolt` instead. -/
theorem c6_counterexample_boilerplate_differs :
    ¬ spec_boilerplate ⊆ textLines (deck pSmall)
    ∧ "*Instance, part=Bolt" ∉ textLines (deck pSmall)
    ∧ "*Step, name=StaticStep" ∉ textLines (deck pSmall)
    ∧ "1.0, 1.0" ∉ textLines (deck pSmall)
    ∧ "*Instance, name=Bolt-1, part=Bolt" ∈ textLines (deck pSmall) := by
  rw [textLines_deck]
  refine ⟨fun hsub => ?_, by decide, by decide, by decide, by decide⟩
  have hm := hsub (show "*Instance, part=Bolt" ∈ spec_boilerplate by decide)
  exact absurd hm (by decide)

/-- The radius factor of radial index 0 vanishes at the default parameters
(there are 5 interior radial divisions, so ring 0 is the axis). -/
theorem head_radius_at_zero_pDefault : head_radius_at pDefault 0 = 0 := by
  rw [head_radius_at, if_pos]
  · simp
  · rw [num_rad_pDefault]
    norm_num

/-- Counterexample to C8 as stated: at the default parameters the first
emitted node sits on the bolt axis at `(0, 0, 8)`, not at full head radius
`(10, 0, 8)`. -/
theorem c8_counterexample_first_node_at_axis :
    (buildState pDefault).node_coordinates.head? = some ((0:ℝ), 0, 8)
    ∧ (buildState pDefault).node_coordinates.head? ≠ some ((10:ℝ), 0, 8) := by
  have h0 : 0 ≤ num_head_radial_divisions pDefault := by
    rw [num_rad_pDefault]
    norm_num
  have hhead : (buildState pDefault).node_coordinates.head?
      = some ((0:ℝ), 0, 8) := by
    rw [buildState_node_coordinates, List.head?_map, emissions_head? pDefault h0]
    simp only [Option.map_some']
    have hz : pDefault.head_thickness = 8 := rfl
    rw [head_radius_at_zero_pDefault, hz]
    norm_num
  refine ⟨hhead, ?_⟩
  rw [hhead]
  simp only [ne_eq, Option.some.injEq, Prod.mk.injEq, not_and]
  intro h
  norm_num at h

/-- C8 (amended): at the default parameters the first node line has id 1 and
coordinates `(0, 0, 8)` — the top of the head on the axis at `theta = 0` —
the deck begins with the fixed header line, and the deck contains exactly one
`*Element, type=C3D8` marker line. -/
theorem c8_amended_concrete_scenario :
    (buildState pDefault).node_lines.head? = some (1, ((0:ℝ), 0, 8))
    ∧ (deck pDefault).head? = some (DeckLine.text "** Abaqus Input File for 3D Bolt Model")
    ∧ (textLines (deck pDefault)).count "*Element, type=C3D8" = 1 := by
  have h0 : 0 ≤ num_head_radial_divisions pDefault := by
    rw [num_rad_pDefault]
    norm_num
  refine ⟨?_, rfl, ?_⟩
  · rw [buildState_node_lines, numberFrom_head?, List.head?_map, emissions_head? pDefault h0]
    simp only [Option.map_some']
    have hz : pDefault.head_thickness = 8 := rfl
    rw [head_radius_at_zero_pDefault, hz]
    norm_num
  · rw [textLines_deck]
    decide

/-- flatMap of a constantly empty function is empty. -/
theorem flatMap_nil_fun (l : List α) : (l.flatMap fun _ => ([] : List β)) = [] := by
  induction l with
  | nil => rfl
  | cons a t ih => simp [List.flatMap_cons, ih]

/-- The natural shank layer count is at least 1. -/
theorem one_le_nShank (p : GeometryParams) : 1 ≤ nShank p := by
  have := num_shank_pos p
  rw [nShank]
  omega

/-- The natural circumferential count is at least 8. -/
theorem eight_le_nCirc (p : GeometryParams) : 8 ≤ nCirc p := by
  have := num_circ_nonneg p
  rw [nCirc]
  omega

/-- The element-loop bound over shank layers as a natural range. -/
theorem pyRange_shank_count (p : GeometryParams) :
    pyRange (num_shank_length_elements p) = List.range (nShank p) := by
  rw [pyRange, nShank]

/-- The element-loop bound over circumferential indices as a natural range. -/
theorem pyRange_circ_count (p : GeometryParams) :
    pyRange (num_circumferential_elements p) = List.range (nCirc p) := by
  rw [pyRange, nCirc]

/-- The first entry of a non-degenerate two-level nest. -/
theorem head?_flatMap_grid (n m : ℕ) (hn : 0 < n) (hm : 0 < m) (g : ℕ → ℕ → α) :
    (((List.range n).flatMap fun a => (List.range m).map fun b => g a b)).head?
      = some (g 0 0) := by
  obtain ⟨n', rfl⟩ := Nat.exists_eq_succ_of_ne_zero hn.ne'
  obtain ⟨m', rfl⟩ := Nat.exists_eq_succ_of_ne_zero hm.ne'
  rw [List.range_succ_eq_map, List.range_succ_eq_map]
  simp

/-- At `pSmall` the head radial loop is empty, so there are no head elements. -/
theorem head_elements_pSmall_nil : head_elements pSmall = [] := by
  rw [head_elements, num_rad_pSmall]
  have h1 : pyRange (0:ℤ) = [] := rfl
  simp only [h1, List.map_nil, flatMap_nil_fun]

/-- The first element tuple of any build whose head produces no elements is
the shank element of layer 0, circumferential index 0. -/
theorem shank_elements_head?_any (p : GeometryParams) :
    (shank_elements p).head?
      = some (shank_element_nodes (nodes_get (buildState p)) (nHead p) 0 0) := by
  rw [shank_elements, pyRange_shank_count]
  simp only [pyRange_circ_count]
  exact head?_flatMap_grid _ _ (by have := one_le_nShank p; omega)
    (by have := eight_le_nCirc p; omega) _

/-- C2 (amended): element ids are contiguous from 1 with head elements fully
before shank elements; every head element follows the spec's 8-corner
pattern (bottom ring `(i,r), (i+1,r), (i+1,r+1), (i,r+1)`, then the top ring
in the same pattern); but every shank element references only 4 node ids —
`(a,i,0), (a,i+1,0), (a+1,i+1,0), (a+1,i,0)` — repeated twice, a degenerate
tuple rather than an 8-corner hexahedron. -/
theorem c2_amended_element_structure (p : GeometryParams) :
    (element_lines p).map Prod.fst = List.range' 1 (elements p).length
    ∧ (element_lines p).map Prod.snd = elements p
    ∧ elements p = head_elements p ++ shank_elements p
    ∧ head_elements p
        = ((pyRange (num_head_thickness_elements p)).flatMap fun layer =>
            (pyRange (num_circumferential_elements p)).flatMap fun i =>
              (pyRange (num_head_radial_divisions p)).map fun r =>
                spec_corner_tuple (nodes_get (buildState p)) layer i r)
    ∧ ∀ t ∈ shank_elements p, ∃ a b c d, t = [a, b, c, d, a, b, c, d] := by
  refine ⟨?_, ?_, rfl, rfl, ?_⟩
  · rw [element_lines, numberFrom_map_fst]
  · rw [element_lines, numberFrom_map_snd]
  · intro t ht
    rw [shank_elements] at ht
    simp only [List.mem_flatMap, List.mem_map] at ht
    obtain ⟨layer, hL, i, hi, heq⟩ := ht
    exact ⟨_, _, _, _, heq.symm⟩

/-- Witness for the amended C2: the first shank element of `pSmall` is a
member of the shank element list and has the degenerate repeated-quad shape. -/
theorem c2_amended_element_structure_witness :
    (shank_element_nodes (nodes_get (buildState pSmall)) (nHead pSmall) 0 0
        ∈ shank_elements pSmall)
    ∧ ∃ a b c d, shank_element_nodes (nodes_get (buildState pSmall)) (nHead pSmall) 0 0
        = [a, b, c, d, a, b, c, d] := by
  have hmem : shank_element_nodes (nodes_get (buildState pSmall)) (nHead pSmall) 0 0
      ∈ shank_elements pSmall := by
    rw [shank_elements]
    simp only [List.mem_flatMap, List.mem_map]
    refine ⟨0, ?_, 0, ?_, rfl⟩
    · rw [num_shank_pSmall]
      decide
    · simp only [pyRange, List.mem_range]
      have := num_circ_nonneg pSmall
      omega
  exact ⟨hmem, (c2_amended_element_structure pSmall).2.2.2.2 _ hmem⟩

/-- Counterexample to C2 as stated: at `pSmall` the first emitted element (a
shank element) is not the 8-corner tuple of the cell it spans — its corner 5
repeats corner 1 instead of referencing the node stored for the top-layer
key `(nHead+1, 0, 0)`. -/
theorem c2_counterexample_shank_not_hexahedron :
    (element_lines pSmall).head?
      = some (1, shank_element_nodes (nodes_get (buildState pSmall)) (nHead pSmall) 0 0)
    ∧ shank_element_nodes (nodes_get (buildState pSmall)) (nHead pSmall) 0 0
        ≠ spec_corner_tuple (nodes_get (buildState pSmall)) (nHead pSmall) 0 0 := by
  constructor
  · rw [element_lines, elements, head_elements_pSmall_nil, List.nil_append,
      numberFrom_head?, shank_elements_head?_any]
    rfl
  · intro heq
    simp only [shank_element_nodes, spec_corner_tuple, List.cons.injEq, and_true] at heq
    obtain ⟨-, -, -, -, h5, -⟩ := heq
    have hg1 : (buildState pSmall).nodes (0 + nHead pSmall, 0, 0)
        = some (1 + head_node_count pSmall + 0) := by
      have h := shank_nodes_lookup pSmall 0 0 (Nat.succ_pos _) (Nat.succ_pos _)
      simpa using h
    have hg2 : (buildState pSmall).nodes (nHead pSmall + 1, 0, 0)
        = some (1 + head_node_count pSmall + (nCirc pSmall + 1)) := by
      have h := shank_nodes_lookup pSmall 1 0
        (by have := one_le_nShank pSmall; omega) (Nat.succ_pos _)
      rw [show (1 + nHead pSmall) = nHead pSmall + 1 from Nat.add_comm 1 _] at h
      simpa using h
    rw [nodes_get, nodes_get, hg1, hg2] at h5
    simp only [Option.getD_some] at h5
    omega
